import Mathlib

/-!
Shallow embedding of the process-supervision logic of run.py, a chat-driven
Python project hosting controller. Pure state is modelled explicitly:

* Python dicts become association lists (namespace Dict) with insertion-order
  semantics (update in place, append new keys, delete removes the key);
* datetime values become integers counting seconds; timedelta.days becomes
  floor division by 86400 (Int.fdiv), matching the Python semantics;
* the OS and gateway environment (current time, path existence checks,
  dependency installation results, process spawning) is an explicit Env
  record of pure functions; a spawn result of none models subprocess.Popen
  raising an exception;
* fallible handlers become functions returning Except or a Bool status paired
  with the successor state.

Definitions mirror run.py: UserManager (add_user / remove_user), ProjectManager
(run_project, stop_project, the resume and delete callback branches, the
global restart sweep), the error_handler retry decorator, the top level
polling loop, and the two-script name selection handler.
-/

namespace FreeFireBot

/-! ### Association-list dictionaries (Python dict semantics) -/

namespace Dict

def get {α β : Type} [DecidableEq α] (k : α) : List (α × β) → Option β
  | [] => none
  | (k', v) :: rest => if k' = k then some v else get k rest

def insert {α β : Type} [DecidableEq α] (k : α) (v : β) : List (α × β) → List (α × β)
  | [] => [(k, v)]
  | (k', v') :: rest => if k' = k then (k, v) :: rest else (k', v') :: insert k v rest

def erase {α β : Type} [DecidableEq α] (k : α) (l : List (α × β)) : List (α × β) :=
  l.filter fun p => p.1 ≠ k

end Dict

/-! ### Configuration constants from run.py -/

def ADMIN_IDS : List Int := [7761577562]

def GLOBAL_RESTART_INTERVAL : Nat := 3600

def MAX_SCRIPTS : Nat := 2

/-! ### Path helpers (POSIX approximations of os.path) -/

def basename (s : String) : String :=
  ((s.split (· = '/')).getLast?).getD ""

def pathJoin (dir name : String) : String := dir ++ "/" ++ name

/-! ### UserManager (run.py lines 98-142) -/

/-- State of UserManager: the in-memory allowed set and the last snapshot
written to allowed_users.json (none if never saved). -/
structure UserManagerState where
  allowed_users : Finset Int
  disk : Option (Finset Int)
deriving DecidableEq

/-- UserManager.__init__ plus load_allowed_users: the allowed set starts as
set(ADMIN_IDS) updated with whatever ids the json file held. -/
def initialUserManager (loaded : Finset Int) : UserManagerState :=
  { allowed_users := ADMIN_IDS.toFinset ∪ loaded, disk := none }

/-- UserManager.add_user: insert and persist. -/
def add_user (st : UserManagerState) (user_id : Int) : UserManagerState :=
  let s := insert user_id st.allowed_users
  { allowed_users := s, disk := some s }

/-- UserManager.remove_user: removes and persists only when the id is a
current member and not an admin; otherwise returns False with no change. -/
def remove_user (st : UserManagerState) (user_id : Int) : Bool × UserManagerState :=
  if user_id ∈ st.allowed_users ∧ user_id ∉ ADMIN_IDS then
    let s := st.allowed_users.erase user_id
    (true, { allowed_users := s, disk := some s })
  else (false, st)

inductive UserOp where
  | add (user_id : Int)
  | remove (user_id : Int)
deriving DecidableEq

def applyUserOp (st : UserManagerState) : UserOp → UserManagerState
  | .add uid => add_user st uid
  | .remove uid => (remove_user st uid).2

def applyUserOps (st : UserManagerState) (ops : List UserOp) : UserManagerState :=
  ops.foldl applyUserOp st

/-! ### error_handler decorator (run.py lines 67-84) and the polling loop -/

def MAX_RETRIES : Nat := 3

def RETRY_DELAY : Nat := 5

/-- Observable outcome of one call of an error_handler wrapped function:
the returned or re-raised value, how many times the wrapped function was
attempted, the sleeps performed between attempts, and whether the final
critical log line was emitted. -/
structure RetryOutcome (α : Type) where
  result : Except Int α
  attempts : Nat
  sleeps : List Nat
  fatalLogged : Bool

/-- The while-loop body of error_handler. `retries` mirrors the Python
counter; `fuel` is the number of loop iterations still permitted by the
guard retries < MAX_RETRIES, so it starts at MAX_RETRIES - retries.
The wrapped function is modelled as a map from attempt index to an
Except result; an error models f raising. -/
def error_handler_loop {α : Type} (f : Nat → Except Int α) :
    Nat → Nat → RetryOutcome α
  | _, 0 => { result := .error 0, attempts := 0, sleeps := [], fatalLogged := false }
  | retries, fuel + 1 =>
    match f retries with
    | .ok a => { result := .ok a, attempts := retries + 1, sleeps := [], fatalLogged := false }
    | .error e =>
      if retries + 1 < MAX_RETRIES then
        let o := error_handler_loop f (retries + 1) fuel
        { result := o.result, attempts := o.attempts,
          sleeps := RETRY_DELAY :: o.sleeps, fatalLogged := o.fatalLogged }
      else
        { result := .error e, attempts := retries + 1, sleeps := [], fatalLogged := true }

/-- One call of a function wrapped by error_handler. -/
def error_handler_run {α : Type} (f : Nat → Except Int α) : RetryOutcome α :=
  error_handler_loop f 0 MAX_RETRIES

/-- What one iteration of the top-level polling loop in PythonHostingBot.run
(run.py lines 1140-1148) does next. There is no crash constructor produced:
the catch-all except turns any raised exception into a logged backoff. -/
inductive PollOutcome where
  | continueNow
  | continueAfterBackoff (secs : Nat)
  | crashed
deriving DecidableEq

/-- One iteration of `while True: try: bot.polling(...) except: log; sleep(10)`.
The argument is the result of the polling call, an error modelling an
exception propagated out of a handler. -/
def run_loop_step (r : Except Int Unit) : PollOutcome :=
  match r with
  | .ok _ => .continueNow
  | .error _ => .continueAfterBackoff 10

/-! ### Onboarding session state and the two-script selection handler
(run.py lines 684-689 create the session, 806-870 handle the free text) -/

structure WaitingInfo where
  project_dir : String
  project_name : String
  chat_id : Int
  scripts_to_run : List String
  num_scripts : Option Nat := none
  available_scripts : List String := []
deriving DecidableEq

inductive TwoScriptsResult where
  | cancelled
  | reprompt
  | advanced
deriving DecidableEq

def isSpaceChar (c : Char) : Bool := c = ' ' ∨ c = '\t' ∨ c = '\n' ∨ c = '\r'

/-- Tokenizer loop for str.split(): `acc` holds the reversed characters of
the token being read; tokens are emitted at whitespace boundaries and empty
pieces are never produced. -/
def tokenizeAux : List Char → List Char → List String
  | [], acc => if acc.isEmpty then [] else [String.mk acc.reverse]
  | c :: cs, acc =>
    if isSpaceChar c then
      if acc.isEmpty then tokenizeAux cs []
      else String.mk acc.reverse :: tokenizeAux cs []
    else tokenizeAux cs (c :: acc)

/-- message.text.strip().split(): split on whitespace runs, dropping empty
pieces (leading and trailing whitespace included). -/
def splitWhitespaceTokens (s : String) : List String := tokenizeAux s.data []

/-- handle_two_scripts_names: exact cancel token aborts; otherwise the text
must split into exactly two tokens, each an existing path under the project
directory, else the handler re-prompts leaving the session untouched; on
success the joined paths are stored as scripts_to_run and the duration
keyboard is presented. -/
def handle_two_scripts_names (pathExists : String → Bool) (w : WaitingInfo)
    (text : String) : WaitingInfo × TwoScriptsResult :=
  if text = "/cancel" then (w, .cancelled)
  else
    let script_names := splitWhitespaceTokens text
    if script_names.length ≠ 2 then (w, .reprompt)
    else
      let missing := script_names.filter fun n => pathExists (pathJoin w.project_dir n) = false
      let mains := (script_names.filter fun n => pathExists (pathJoin w.project_dir n) = true).map
        (pathJoin w.project_dir)
      if missing ≠ [] then (w, .reprompt)
      else ({ w with scripts_to_run := mains }, .advanced)

/-! ### ProjectManager data model (run.py lines 147-477) -/

/-- A persisted user project record (an element of user_projects values). -/
structure ProjectInfo where
  project_dir : String
  project_name : String
  upload_time : Int
  chat_id : Int
  pinned : Bool
  main_files : List String
  num_scripts : Nat
deriving DecidableEq

/-- A transient supervision record: an entry of running_processes or
paused_processes. Process handles are modelled as numeric ids. -/
structure RunState where
  processes : List Nat
  chat_id : Int
  start_time : Int
  end_time : Option Int
  project_name : String
  user_id : Option Int
  pinned : Bool
  main_files : List String
  auto_restart : Bool
deriving DecidableEq

/-- The mutable registries of ProjectManager. -/
structure ManagerState where
  running_processes : List (String × RunState)
  paused_processes : List (String × RunState)
  user_projects : List (Int × List ProjectInfo)
  waiting_for_main_file : List (Int × WaitingInfo)
deriving DecidableEq

/-- The external world run.py interacts with: the clock, the filesystem,
pip, and process creation. spawn takes the index of the launch within one
run_project call and the absolute script path; none models Popen raising. -/
structure Env where
  now : Int
  pathExists : String → Bool
  isFile : String → Bool
  abspath : String → String
  installOk : String → Bool
  spawn : Nat → String → Option Nat

/-- ProjectManager.get_user_id_by_chat_id: first user owning a project with
this chat id, in registration order; none when there is no such project. -/
def get_user_id_by_chat_id : List (Int × List ProjectInfo) → Int → Option Int
  | [], _ => none
  | (uid, projs) :: rest, chat =>
    if projs.any fun p => p.chat_id = chat then some uid
    else get_user_id_by_chat_id rest chat

/-- The first persisted project of one user matching the directory; its
main_files, or [] when no entry matches (the for/break loop in run_project). -/
def findProjectMainFiles : List ProjectInfo → String → List String
  | [], _ => []
  | p :: rest, pd => if p.project_dir = pd then p.main_files else findProjectMainFiles rest pd

/-- Main files recorded in user_projects for this chat and directory
(run.py lines 278-285). -/
def persistedMainFilesOf (ups : List (Int × List ProjectInfo)) (chat_id : Int)
    (project_dir : String) : List String :=
  match get_user_id_by_chat_id ups chat_id with
  | none => []
  | some uid =>
    match Dict.get uid ups with
    | none => []
    | some projs => findProjectMainFiles projs project_dir

/-- The project record appended when run_project takes its main files from a
pending onboarding session (run.py lines 295-305). -/
def mkProjectInfo (env : Env) (project_dir : String) (chat_id : Int)
    (main_files : List String) : ProjectInfo :=
  { project_dir := project_dir, project_name := basename project_dir,
    upload_time := env.now, chat_id := chat_id, pinned := false,
    main_files := main_files, num_scripts := main_files.length }

/-- The dual-path main-file resolution at the top of run_project
(run.py lines 277-305): first the persisted store, then the pending
onboarding session, persisting a new record in the latter case. Returns the
resolved list together with the possibly updated state. -/
def resolveMainFiles (env : Env) (st : ManagerState) (project_dir : String)
    (chat_id : Int) : List String × ManagerState :=
  let user_id := get_user_id_by_chat_id st.user_projects chat_id
  let persisted := persistedMainFilesOf st.user_projects chat_id project_dir
  if persisted.isEmpty then
    match user_id with
    | none => ([], st)
    | some uid =>
      match Dict.get uid st.waiting_for_main_file with
      | none => ([], st)
      | some w =>
        if w.scripts_to_run.isEmpty then ([], st)
        else
          let projs := (Dict.get uid st.user_projects).getD []
          let entry := mkProjectInfo env project_dir chat_id w.scripts_to_run
          let ups := Dict.insert uid (projs ++ [entry]) st.user_projects
          (w.scripts_to_run, { st with user_projects := ups })
  else (persisted, st)

/-- The launch loop of run_project (run.py lines 326-343): per main file,
skip it when its absolute path is not a file, otherwise spawn a child
process; none models Popen raising, which aborts the whole call. -/
def launchProcesses (env : Env) : List String → Nat → Option (List Nat)
  | [], _ => some []
  | f :: rest, i =>
    if env.isFile (env.abspath f) then
      match env.spawn i (env.abspath f) with
      | none => none
      | some h =>
        match launchProcesses env rest (i + 1) with
        | none => none
        | some hs => some (h :: hs)
    else launchProcesses env rest i

/-- end_time = datetime.now() + timedelta(days=duration_days) if duration_days
else None (run.py line 362). A duration of none or 0 is falsy, so no deadline;
one day is 86400 seconds. -/
def durToEnd (now : Int) : Option Int → Option Int
  | none => none
  | some d => if d = 0 then none else some (now + d * 86400)

/-- The RunState inserted by a successful run_project (run.py lines 364-374).
user_id is computed from the original user_projects, before any append. -/
def mkRunState (env : Env) (st : ManagerState) (chat_id : Int) (project_dir : String)
    (main_files : List String) (procs : List Nat) (duration_days : Option Int)
    (auto_restart : Bool) : RunState :=
  { processes := procs, chat_id := chat_id, start_time := env.now,
    end_time := durToEnd env.now duration_days, project_name := basename project_dir,
    user_id := get_user_id_by_chat_id st.user_projects chat_id,
    pinned := false, main_files := main_files, auto_restart := auto_restart }

/-- ProjectManager.run_project (run.py lines 274-390). Returns the boolean
the method returns together with the successor state. -/
def run_project (env : Env) (st : ManagerState) (project_dir : String) (chat_id : Int)
    (duration_days : Option Int) (auto_restart : Bool) : Bool × ManagerState :=
  let r := resolveMainFiles env st project_dir chat_id
  let main_files := r.1
  let st1 := r.2
  if main_files.isEmpty then (false, st1)
  else if main_files.any (fun f => !(env.pathExists f)) then (false, st1)
  else if !(env.installOk project_dir) then (false, st1)
  else
    match launchProcesses env main_files 0 with
    | none => (false, st1)
    | some procs =>
      if procs.isEmpty then (false, st1)
      else
        (true,
          { st1 with
            running_processes :=
              Dict.insert project_dir
                (mkRunState env st chat_id project_dir main_files procs duration_days auto_restart)
                st1.running_processes,
            paused_processes := Dict.erase project_dir st1.paused_processes })

/-- ProjectManager.stop_project (run.py lines 418-462). Termination of the OS
processes has no effect on the registries; with pause the RunState record is
moved verbatim into paused_processes, otherwise it is discarded. -/
def stop_project (st : ManagerState) (project_dir : String) (chat_id : Int)
    (pause : Bool) : Bool × ManagerState :=
  match Dict.get project_dir st.running_processes with
  | none => (false, st)
  | some info =>
    let stP :=
      if pause then
        { st with paused_processes := Dict.insert project_dir info st.paused_processes }
      else st
    (true, { stP with running_processes := Dict.erase project_dir stP.running_processes })

/-- The resume_ branch of handle_callbacks (run.py lines 1004-1040): when the
project is paused, relaunch it via run_project with the remaining duration in
whole days recomputed from the stored end_time ((end_time - now).days, i.e.
floor division), and the default auto_restart of True. -/
def resume_project (env : Env) (st : ManagerState) (project_dir : String) :
    Bool × ManagerState :=
  match Dict.get project_dir st.paused_processes with
  | none => (false, st)
  | some info =>
    run_project env st project_dir info.chat_id
      (info.end_time.map fun e => Int.fdiv (e - env.now) 86400) true

/-- First half of the delete_ branch of handle_callbacks (run.py lines
1101-1105): drop the persisted records of the chat owner, provided that owner
id is truthy and present. -/
def deleteUserRecords (st : ManagerState) (project_dir : String) (chat_id : Int) :
    ManagerState :=
  match get_user_id_by_chat_id st.user_projects chat_id with
  | none => st
  | some uid =>
    if uid = 0 then st
    else
      match Dict.get uid st.user_projects with
      | none => st
      | some projs =>
        let kept := projs.filter fun p => p.project_dir ≠ project_dir
        { st with user_projects := Dict.insert uid kept st.user_projects }

/-- The delete_ branch of handle_callbacks (run.py lines 1098-1127): drop the
persisted records for the chat owner, stop the project if running, and drop
any paused entry. -/
def delete_project (st : ManagerState) (project_dir : String) (chat_id : Int) :
    ManagerState :=
  let st1 := deleteUserRecords st project_dir chat_id
  let st2 :=
    if (Dict.get project_dir st1.running_processes).isSome then
      (stop_project st1 project_dir chat_id false).2
    else st1
  { st2 with paused_processes := Dict.erase project_dir st2.paused_processes }

/-- The single-request supervisor operations of the claims. -/
inductive SupOp where
  | runOp (project_dir : String) (chat_id : Int) (duration_days : Option Int)
      (auto_restart : Bool)
  | stopOp (project_dir : String) (chat_id : Int) (pause : Bool)
  | resumeOp (project_dir : String)
  | deleteOp (project_dir : String) (chat_id : Int)

def applyOp (env : Env) (st : ManagerState) : SupOp → ManagerState
  | .runOp pd chat d a => (run_project env st pd chat d a).2
  | .stopOp pd chat p => (stop_project st pd chat p).2
  | .resumeOp pd => (resume_project env st pd).2
  | .deleteOp pd chat => delete_project st pd chat

/-- The invariant of claim C1: no project id is registered as running and
paused at the same time. -/
def registriesDisjoint (st : ManagerState) : Prop :=
  ∀ pd, Dict.get pd st.running_processes = none ∨ Dict.get pd st.paused_processes = none

/-! ### The global restart sweep (run.py lines 203-237) -/

/-- The body of one snapshot entry of the sweep loop, in the run where no
exception escapes it: entries with auto_restart False are skipped, the rest
are stopped and immediately rerun with the remaining duration in whole days
recomputed from the stored end_time (none when absent) and the same
auto_restart flag. -/
def globalRestartStep (env : Env) (st : ManagerState) (entry : String × RunState) :
    ManagerState :=
  if entry.2.auto_restart = false then st
  else
    let st1 := (stop_project st entry.1 entry.2.chat_id false).2
    (run_project env st1 entry.1 entry.2.chat_id
      (entry.2.end_time.map fun e => Int.fdiv (e - env.now) 86400)
      entry.2.auto_restart).2

/-- One exception-free pass of _global_restart_projects over the snapshot
list(running_processes.items()) taken at the start of the pass. -/
def globalRestartPass (env : Env) (st : ManagerState) : ManagerState :=
  st.running_processes.foldl (globalRestartStep env) st

/-- Control-flow model of one sweep pass for claim C4, tracking which snapshot
entries the loop body actually reaches. Per entry the behaviour oracle says
whether an exception escapes the per-project try body (stop, rerun, or the
restarted notification raising through the internal handlers), and whether
the failure-report send in the per-project except block itself raises. In the
latter case the exception propagates to the outer except of the sweep loop,
which logs, backs off and re-enters the outer sleep, so the remaining
snapshot entries of this pass are never reached. -/
def sweepIterated (beh : String → Bool × Bool) :
    List (String × RunState) → List String
  | [] => []
  | (pd, info) :: rest =>
    if info.auto_restart = false then pd :: sweepIterated beh rest
    else if (beh pd).1 = false then pd :: sweepIterated beh rest
    else if (beh pd).2 = false then pd :: sweepIterated beh rest
    else [pd]

/-- The success conditions under which run_project, resolving from the
persisted store, succeeds: a nonempty persisted main-file list whose paths
all exist, a successful dependency installation, and at least one child
process spawned without Popen raising. -/
def runnableFromStore (env : Env) (ups : List (Int × List ProjectInfo))
    (project_dir : String) (chat_id : Int) : Prop :=
  persistedMainFilesOf ups chat_id project_dir ≠ [] ∧
  (∀ f ∈ persistedMainFilesOf ups chat_id project_dir, env.pathExists f = true) ∧
  env.installOk project_dir = true ∧
  (launchProcesses env (persistedMainFilesOf ups chat_id project_dir) 0).isSome ∧
  (launchProcesses env (persistedMainFilesOf ups chat_id project_dir) 0).getD [] ≠ []

instance (env : Env) (ups : List (Int × List ProjectInfo)) (pd : String) (chat : Int) :
    Decidable (runnableFromStore env ups pd chat) := by
  unfold runnableFromStore
  infer_instance

/-- The RunState an auto_restart entry holds after the sweep relaunched it. -/
def restartedRunState (env : Env) (ups : List (Int × List ProjectInfo))
    (project_dir : String) (info : RunState) : RunState :=
  let mf := persistedMainFilesOf ups info.chat_id project_dir
  { processes := (launchProcesses env mf 0).getD [],
    chat_id := info.chat_id, start_time := env.now,
    end_time := durToEnd env.now (info.end_time.map fun e => Int.fdiv (e - env.now) 86400),
    project_name := basename project_dir,
    user_id := get_user_id_by_chat_id ups info.chat_id,
    pinned := false, main_files := mf, auto_restart := info.auto_restart }

/-! ### Concrete fixtures used by the witness theorems -/

/-- A benign environment: all paths exist, installation succeeds, spawning
the i-th child yields handle 100 + i. -/
def env0 : Env :=
  { now := 1000000, pathExists := fun _ => true, isFile := fun _ => true,
    abspath := fun s => s, installOk := fun _ => true,
    spawn := fun i _ => some (100 + i) }

def proj0 : ProjectInfo :=
  { project_dir := "projects/7/app", project_name := "app", upload_time := 0,
    chat_id := 50, pinned := false, main_files := ["projects/7/app/main.py"],
    num_scripts := 1 }

/-- A running entry for proj0 whose deadline is one hour in the future. -/
def rsRunning0 : RunState :=
  { processes := [11], chat_id := 50, start_time := 0, end_time := some 1003600,
    project_name := "app", user_id := some 7, pinned := false,
    main_files := ["projects/7/app/main.py"], auto_restart := true }

/-- A second running entry with auto_restart disabled. -/
def rsNoRestart : RunState :=
  { processes := [12], chat_id := 50, start_time := 0, end_time := none,
    project_name := "b", user_id := some 7, pinned := false,
    main_files := ["projects/7/b/main.py"], auto_restart := false }

def stEmpty : ManagerState :=
  { running_processes := [], paused_processes := [], user_projects := [],
    waiting_for_main_file := [] }

def st0 : ManagerState :=
  { running_processes := [("projects/7/app", rsRunning0)],
    paused_processes := [], user_projects := [(7, [proj0])],
    waiting_for_main_file := [] }

def st5 : ManagerState :=
  { running_processes := [("projects/7/app", rsRunning0), ("projects/7/b", rsNoRestart)],
    paused_processes := [], user_projects := [(7, [proj0])],
    waiting_for_main_file := [] }

def stPaused : ManagerState :=
  { running_processes := [],
    paused_processes := [("projects/7/app", rsRunning0)],
    user_projects := [(7, [proj0])],
    waiting_for_main_file := [] }

/-- Sweep behaviour oracle where project a fails to restart and the
failure-report send to its chat also raises. -/
def behAbort : String → Bool × Bool := fun s => if s = "a" then (true, true) else (false, false)

/-- Sweep behaviour oracle where project a fails to restart but every
failure-report send succeeds. -/
def behReportOk : String → Bool × Bool := fun s => (decide (s = "a"), false)

def rsA : RunState :=
  { processes := [1], chat_id := 1, start_time := 0, end_time := none,
    project_name := "a", user_id := none, pinned := false,
    main_files := ["a/m.py"], auto_restart := true }

def rsB : RunState :=
  { processes := [2], chat_id := 2, start_time := 0, end_time := none,
    project_name := "b", user_id := none, pinned := false,
    main_files := ["b/m.py"], auto_restart := true }

def w0 : WaitingInfo :=
  { project_dir := "projects/7/app", project_name := "app", chat_id := 50,
    scripts_to_run := [], num_scripts := some 2,
    available_scripts := ["main.py", "worker.py"] }

/-! # Theorems -/

/-! ### Dictionary lemmas -/

theorem Dict.get_insert_self {α β : Type} [DecidableEq α] (k : α) (v : β) (l : List (α × β)) :
    Dict.get k (Dict.insert k v l) = some v := by
  induction l with
  | nil => simp [Dict.get, Dict.insert]
  | cons p rest ih =>
    by_cases h : p.1 = k
    · simp [Dict.insert, h, Dict.get]
    · simp [Dict.insert, h, Dict.get, ih]

theorem Dict.get_insert_ne {α β : Type} [DecidableEq α] (q k : α) (v : β) (l : List (α × β))
    (h : k ≠ q) : Dict.get q (Dict.insert k v l) = Dict.get q l := by
  induction l with
  | nil => simp [Dict.get, Dict.insert, h]
  | cons p rest ih =>
    by_cases hp : p.1 = k
    · have hpq : p.1 ≠ q := by rw [hp]; exact h
      simp [Dict.insert, hp, Dict.get, h, hpq]
    · by_cases hq : p.1 = q
      · simp [Dict.insert, hp, Dict.get, hq, Ne.symm h]
      · simp [Dict.insert, hp, Dict.get, hq, ih]

theorem Dict.erase_cons {α β : Type} [DecidableEq α] (k : α) (p : α × β) (l : List (α × β)) :
    Dict.erase k (p :: l) = if p.1 = k then Dict.erase k l else p :: Dict.erase k l := by
  by_cases hp : p.1 = k <;> simp [Dict.erase, hp]

theorem Dict.get_erase_self {α β : Type} [DecidableEq α] (k : α) (l : List (α × β)) :
    Dict.get k (Dict.erase k l) = none := by
  induction l with
  | nil => simp [Dict.get, Dict.erase]
  | cons p rest ih =>
    rw [Dict.erase_cons]
    by_cases hp : p.1 = k
    · simpa [hp] using ih
    · simp [hp, Dict.get, ih]

theorem Dict.get_erase_ne {α β : Type} [DecidableEq α] (q k : α) (l : List (α × β))
    (h : k ≠ q) : Dict.get q (Dict.erase k l) = Dict.get q l := by
  induction l with
  | nil => simp [Dict.get, Dict.erase]
  | cons p rest ih =>
    rw [Dict.erase_cons]
    by_cases hp : p.1 = k
    · have hpq : p.1 ≠ q := by rw [hp]; exact h
      simp [hp, Dict.get, hpq, h, ih]
    · simp [hp, Dict.get, ih]

theorem Dict.erase_eq_of_get_none {α β : Type} [DecidableEq α] (k : α) (l : List (α × β))
    (h : Dict.get k l = none) : Dict.erase k l = l := by
  induction l with
  | nil => simp [Dict.erase]
  | cons p rest ih =>
    rw [Dict.erase_cons]
    by_cases hp : p.1 = k
    · rw [Dict.get, if_pos hp] at h
      cases h
    · rw [Dict.get, if_neg hp] at h
      simp [hp, ih h]

theorem Dict.get_of_mem_nodup {α β : Type} [DecidableEq α] {k : α} {v : β} {l : List (α × β)}
    (hnd : (l.map Prod.fst).Nodup) (hm : (k, v) ∈ l) : Dict.get k l = some v := by
  induction l with
  | nil => cases hm
  | cons p rest ih =>
    rcases List.mem_cons.mp hm with h | h
    · simp [← h, Dict.get]
    · have hk : p.1 ≠ k := by
        intro hEq
        have hmem : k ∈ rest.map Prod.fst := List.mem_map.mpr ⟨(k, v), h, rfl⟩
        rw [List.map_cons, List.nodup_cons] at hnd
        exact hnd.1 (hEq ▸ hmem)
      have hnd' : (rest.map Prod.fst).Nodup := by
        rw [List.map_cons, List.nodup_cons] at hnd
        exact hnd.2
      simp [Dict.get, hk, ih hnd' h]

/-! ### Access control -/

/-- Every admin id stays in the allowed set through any sequence of add_user
and remove_user calls. -/
theorem admins_subset_applyUserOps (ops : List UserOp) (st : UserManagerState)
    (h : ∀ b ∈ ADMIN_IDS, b ∈ st.allowed_users) :
    ∀ b ∈ ADMIN_IDS, b ∈ (applyUserOps st ops).allowed_users := by
  induction ops generalizing st with
  | nil => exact h
  | cons op rest ih =>
    refine ih _ ?_
    intro b hb
    cases op with
    | add uid =>
      have := h b hb
      simp [applyUserOp, add_user, Finset.mem_insert]
      tauto
    | remove uid =>
      simp only [applyUserOp, remove_user]
      split
      · next hcond =>
        simp only [Finset.mem_erase]
        exact ⟨fun hEq => hcond.2 (hEq ▸ hb), h b hb⟩
      · exact h b hb

/-- C8: for every admin id, remove_user fails and changes nothing, whatever
sequence of add_user and remove_user calls preceded it, and the admin id is
still in the allowed set. -/
theorem remove_user_admin_always_fails (loaded : Finset Int) (ops : List UserOp) (a : Int)
    (ha : a ∈ ADMIN_IDS) :
    remove_user (applyUserOps (initialUserManager loaded) ops) a =
      (false, applyUserOps (initialUserManager loaded) ops) ∧
    a ∈ (applyUserOps (initialUserManager loaded) ops).allowed_users := by
  constructor
  · simp [remove_user, ha]
  · refine admins_subset_applyUserOps ops _ ?_ a ha
    intro b hb
    simp [initialUserManager, Finset.mem_union, List.mem_toFinset]
    exact Or.inl hb

/-- Witness for C8 at a concrete history: a user is added, then removal of
the sole admin id is attempted. -/
theorem remove_user_admin_witness :
    remove_user (applyUserOps (initialUserManager ∅) [UserOp.add 5, UserOp.remove 7761577562])
        7761577562 =
      (false, applyUserOps (initialUserManager ∅) [UserOp.add 5, UserOp.remove 7761577562]) ∧
    (7761577562 : Int) ∈
      (applyUserOps (initialUserManager ∅) [UserOp.add 5, UserOp.remove 7761577562]).allowed_users :=
  remove_user_admin_always_fails ∅ [UserOp.add 5, UserOp.remove 7761577562] 7761577562 (by decide)

/-- C9 counterexample: the id 1 is not an admin, yet remove_user on the
freshly initialised manager reports failure and changes nothing, because the
code also requires the id to be a current member of the allowed set. -/
theorem remove_user_nonadmin_missing_counterexample :
    (1 : Int) ∉ ADMIN_IDS ∧
    remove_user (initialUserManager ∅) 1 = (false, initialUserManager ∅) := by
  constructor
  · decide
  · have h1 : (1 : Int) ∉ (initialUserManager ∅).allowed_users := by decide
    simp [remove_user, h1]

/-- C9 as amended: for every id that is not an admin and is currently in the
allowed set, remove_user removes it, persists the new set to disk, and
reports success. -/
theorem remove_user_nonadmin_member_succeeds (st : UserManagerState) (uid : Int)
    (h1 : uid ∉ ADMIN_IDS) (h2 : uid ∈ st.allowed_users) :
    (remove_user st uid).1 = true ∧
    (remove_user st uid).2.allowed_users = st.allowed_users.erase uid ∧
    uid ∉ (remove_user st uid).2.allowed_users ∧
    (remove_user st uid).2.disk = some ((remove_user st uid).2.allowed_users) := by
  simp [remove_user, h1, h2, Finset.not_mem_erase]

/-- Witness for the amended C9: user 5 is added and then removed. -/
theorem remove_user_nonadmin_member_witness :
    (remove_user (add_user (initialUserManager ∅) 5) 5).1 = true ∧
    (remove_user (add_user (initialUserManager ∅) 5) 5).2.allowed_users =
      (add_user (initialUserManager ∅) 5).allowed_users.erase 5 ∧
    (5 : Int) ∉ (remove_user (add_user (initialUserManager ∅) 5) 5).2.allowed_users ∧
    (remove_user (add_user (initialUserManager ∅) 5) 5).2.disk =
      some ((remove_user (add_user (initialUserManager ∅) 5) 5).2.allowed_users) :=
  remove_user_nonadmin_member_succeeds (add_user (initialUserManager ∅) 5) 5
    (by decide) (by decide)

/-! ### The retry decorator -/

/-- C6: when the wrapped function raises on every attempt, the error_handler
wrapper makes its 3 attempts (the retry counter is capped at MAX_RETRIES = 3)
with the fixed RETRY_DELAY = 5 second sleep between consecutive attempts,
emits the final critical log line for that operation, and the exception it
then re-raises is absorbed by the top-level polling loop as a logged backoff,
never a crash of the controller process. -/
theorem error_handler_retries_three_attempts_no_crash {α : Type}
    (f : Nat → Except Int α) (hfail : ∀ n, ∃ e, f n = .error e) :
    (error_handler_run f).attempts = 3 ∧
    (error_handler_run f).sleeps = [RETRY_DELAY, RETRY_DELAY] ∧
    (error_handler_run f).fatalLogged = true ∧
    ∃ e, (error_handler_run f).result = .error e ∧
      run_loop_step (.error e) = .continueAfterBackoff 10 := by
  obtain ⟨e0, h0⟩ := hfail 0
  obtain ⟨e1, h1⟩ := hfail 1
  obtain ⟨e2, h2⟩ := hfail 2
  refine ⟨?_, ?_, ?_, e2, ?_, rfl⟩ <;>
    simp [error_handler_run, error_handler_loop, MAX_RETRIES, RETRY_DELAY, h0, h1, h2]

/-- Witness for C6: a wrapped function raising on every attempt. -/
theorem error_handler_retries_witness :
    (error_handler_run fun _ => (Except.error 7 : Except Int Int)).attempts = 3 ∧
    (error_handler_run fun _ => (Except.error 7 : Except Int Int)).sleeps =
      [RETRY_DELAY, RETRY_DELAY] ∧
    (error_handler_run fun _ => (Except.error 7 : Except Int Int)).fatalLogged = true ∧
    ∃ e, (error_handler_run fun _ => (Except.error 7 : Except Int Int)).result = .error e ∧
      run_loop_step (.error e) = .continueAfterBackoff 10 :=
  error_handler_retries_three_attempts_no_crash _ (fun _ => ⟨7, rfl⟩)

/-! ### Two-script selection -/

/-- C7: for any text other than the cancel token, the two-script handler
re-prompts and leaves the session untouched unless the text splits into
exactly two whitespace-separated names that all exist under the project
directory; exactly then the joined paths are stored as scripts_to_run and
the flow advances to duration selection. -/
theorem two_scripts_input_validation (ex : String → Bool) (w : WaitingInfo) (text : String)
    (hnc : text ≠ "/cancel") :
    (((splitWhitespaceTokens text).length ≠ 2 ∨
        ∃ n ∈ splitWhitespaceTokens text, ex (pathJoin w.project_dir n) = false) →
      handle_two_scripts_names ex w text = (w, .reprompt)) ∧
    (((splitWhitespaceTokens text).length = 2 ∧
        ∀ n ∈ splitWhitespaceTokens text, ex (pathJoin w.project_dir n) = true) →
      handle_two_scripts_names ex w text =
        ({ w with scripts_to_run := (splitWhitespaceTokens text).map (pathJoin w.project_dir) },
          .advanced)) := by
  constructor
  · intro h
    rcases h with hlen | ⟨n, hn, hex⟩
    · simp [handle_two_scripts_names, hnc, hlen]
    · by_cases hlen : (splitWhitespaceTokens text).length = 2
      · have hmem : ∃ x ∈ splitWhitespaceTokens text, ex (pathJoin w.project_dir x) = false :=
          ⟨n, hn, hex⟩
        simp [handle_two_scripts_names, hnc, hlen, hmem]
      · simp [handle_two_scripts_names, hnc, hlen]
  · intro ⟨hlen, hall⟩
    have hnex : ¬ ∃ x ∈ splitWhitespaceTokens text, ex (pathJoin w.project_dir x) = false := by
      rintro ⟨m, hm, hf⟩
      rw [hall m hm] at hf
      cases hf
    have hkeep :
        (splitWhitespaceTokens text).filter
          (fun m => ex (pathJoin w.project_dir m)) = splitWhitespaceTokens text := by
      apply List.filter_eq_self.mpr
      intro m hm
      exact hall m hm
    simp [handle_two_scripts_names, hnc, hlen, hnex, hkeep]

/-- Witness for C7: a valid two-name input advances storing the joined
paths; a one-name input re-prompts without touching the session. -/
theorem two_scripts_input_validation_witness :
    handle_two_scripts_names (fun _ => true) w0 "main.py worker.py" =
      ({ w0 with scripts_to_run :=
          (splitWhitespaceTokens "main.py worker.py").map (pathJoin w0.project_dir) },
        .advanced) ∧
    handle_two_scripts_names (fun _ => true) w0 "main.py" = (w0, .reprompt) :=
  ⟨(two_scripts_input_validation (fun _ => true) w0 "main.py worker.py" (by decide)).2
      ⟨by decide, fun n _ => rfl⟩,
    (two_scripts_input_validation (fun _ => true) w0 "main.py" (by decide)).1
      (Or.inl (by decide))⟩

/-! ### The sweep loop control flow (claim C4) -/

/-- C4 counterexample: with two auto-restart entries in the snapshot, if the
restart of project a fails and the failure-report send to the chat of a also
raises, the sweep iteration for project b never runs in this pass, so a
failure for one project does prevent the remaining running projects from
being processed. -/
theorem sweep_notify_failure_aborts_pass_counterexample :
    "b" ∈ ([("a", rsA), ("b", rsB)].map Prod.fst) ∧
    rsB.auto_restart = true ∧
    sweepIterated behAbort [("a", rsA), ("b", rsB)] = ["a"] ∧
    "b" ∉ sweepIterated behAbort [("a", rsA), ("b", rsB)] := by decide

/-- C4 as amended: a failure while restarting one project never prevents the
remaining snapshot entries of the pass from being processed, provided the
failure-report send to the chat of the failing project does not itself raise;
under that proviso the loop body runs for every snapshot entry. -/
theorem sweep_isolation_when_failure_report_sends_succeed
    (beh : String → Bool × Bool) (entries : List (String × RunState))
    (h : ∀ p ∈ entries, (beh p.1).2 = false) :
    sweepIterated beh entries = entries.map Prod.fst := by
  induction entries with
  | nil => rfl
  | cons p rest ih =>
    obtain ⟨pd, info⟩ := p
    have hp := h (pd, info) (by simp)
    have hrest : ∀ q ∈ rest, (beh q.1).2 = false := fun q hq => h q (by simp [hq])
    by_cases ha : info.auto_restart = false
    · simp [sweepIterated, ha, ih hrest]
    · by_cases hb : (beh pd).1 = false
      · simp [sweepIterated, ha, hb, ih hrest]
      · simp [sweepIterated, ha, hb, hp, ih hrest]

/-- Witness for the amended C4: project a fails to restart, its failure
report is delivered, and project b is still processed. -/
theorem sweep_isolation_witness :
    sweepIterated behReportOk [("a", rsA), ("b", rsB)] =
      [("a", rsA), ("b", rsB)].map Prod.fst :=
  sweep_isolation_when_failure_report_sends_succeed behReportOk
    [("a", rsA), ("b", rsB)] (by decide)

/-! ### run_project characterizations -/

/-- Main-file resolution never touches the running or paused registries. -/
theorem resolveMainFiles_registries (env : Env) (st : ManagerState) (pd : String)
    (chat : Int) :
    (resolveMainFiles env st pd chat).2.running_processes = st.running_processes ∧
    (resolveMainFiles env st pd chat).2.paused_processes = st.paused_processes := by
  unfold resolveMainFiles
  dsimp only
  repeat' split
  all_goals exact ⟨rfl, rfl⟩

/-- When resolution yields no main files it also leaves the state untouched. -/
theorem resolveMainFiles_cases (env : Env) (st : ManagerState) (pd : String) (chat : Int) :
    (resolveMainFiles env st pd chat).1 ≠ [] ∨
    resolveMainFiles env st pd chat = ([], st) := by
  unfold resolveMainFiles
  dsimp only
  split
  · split
    · exact Or.inr rfl
    · split
      · exact Or.inr rfl
      · split
        · exact Or.inr rfl
        · next hne => exact Or.inl (by simpa using hne)
  · next hne => exact Or.inl (by simpa using hne)

/-- C2: when no main files resolve for the directory and chat, neither from a
persisted project record nor from a pending onboarding session, run_project
reports failure and the whole state, in particular both registries, is
unchanged. -/
theorem run_project_no_resolved_main_files (env : Env) (st : ManagerState) (pd : String)
    (chat : Int) (d : Option Int) (a : Bool)
    (h : (resolveMainFiles env st pd chat).1 = []) :
    (run_project env st pd chat d a).1 = false ∧
    (run_project env st pd chat d a).2.running_processes = st.running_processes ∧
    (run_project env st pd chat d a).2.paused_processes = st.paused_processes := by
  have hres : resolveMainFiles env st pd chat = ([], st) := by
    rcases resolveMainFiles_cases env st pd chat with hne | hEq
    · exact absurd h hne
    · exact hEq
  unfold run_project
  rw [hres]
  simp

/-- Witness for C2: an empty manager state resolves no main files. -/
theorem run_project_no_resolved_main_files_witness :
    (run_project env0 stEmpty "projects/7/app" 50 none true).1 = false ∧
    (run_project env0 stEmpty "projects/7/app" 50 none true).2.running_processes =
      stEmpty.running_processes ∧
    (run_project env0 stEmpty "projects/7/app" 50 none true).2.paused_processes =
      stEmpty.paused_processes :=
  run_project_no_resolved_main_files env0 stEmpty "projects/7/app" 50 none true (by decide)

/-- run_project either leaves both registries unchanged (any failure path) or
inserts a RunState for the project into running while evicting any paused
entry for it. -/
theorem run_project_registries (env : Env) (st : ManagerState) (pd : String) (chat : Int)
    (d : Option Int) (a : Bool) :
    ((run_project env st pd chat d a).2.running_processes = st.running_processes ∧
     (run_project env st pd chat d a).2.paused_processes = st.paused_processes) ∨
    (∃ rs, (run_project env st pd chat d a).2.running_processes =
        Dict.insert pd rs st.running_processes ∧
      (run_project env st pd chat d a).2.paused_processes =
        Dict.erase pd st.paused_processes) := by
  have hreg := resolveMainFiles_registries env st pd chat
  unfold run_project
  dsimp only
  repeat' split
  all_goals
    first
      | exact Or.inl hreg
      | exact Or.inr ⟨_, by rw [hreg.1], by rw [hreg.2]⟩

/-- Disjointness of the registries survives run_project. -/
theorem run_project_disjoint (env : Env) (st : ManagerState) (pd : String) (chat : Int)
    (d : Option Int) (a : Bool) (h : registriesDisjoint st) :
    registriesDisjoint (run_project env st pd chat d a).2 := by
  rcases run_project_registries env st pd chat d a with ⟨h1, h2⟩ | ⟨rs, h1, h2⟩
  · intro q
    rw [h1, h2]
    exact h q
  · intro q
    by_cases hq : q = pd
    · subst hq
      exact Or.inr (by rw [h2]; exact Dict.get_erase_self q _)
    · rcases h q with hr | hp
      · exact Or.inl (by rw [h1, Dict.get_insert_ne q pd _ _ (Ne.symm hq)]; exact hr)
      · exact Or.inr (by rw [h2, Dict.get_erase_ne q pd _ (Ne.symm hq)]; exact hp)

/-- Disjointness of the registries survives stop_project, paused or not. -/
theorem stop_project_disjoint (st : ManagerState) (pd : String) (chat : Int) (pause : Bool)
    (h : registriesDisjoint st) : registriesDisjoint (stop_project st pd chat pause).2 := by
  intro q
  unfold stop_project
  cases hg : Dict.get pd st.running_processes with
  | none => exact h q
  | some info =>
    by_cases hq : q = pd
    · subst hq
      exact Or.inl (by cases pause <;> simp [Dict.get_erase_self])
    · rcases h q with hr | hp
      · refine Or.inl ?_
        cases pause <;> simp [Dict.get_erase_ne q pd _ (Ne.symm hq), hr]
      · refine Or.inr ?_
        cases pause
        · simpa using hp
        · simpa [Dict.get_insert_ne q pd _ _ (Ne.symm hq)] using hp

/-- Disjointness of the registries survives the resume callback. -/
theorem resume_project_disjoint (env : Env) (st : ManagerState) (pd : String)
    (h : registriesDisjoint st) : registriesDisjoint (resume_project env st pd).2 := by
  unfold resume_project
  cases hg : Dict.get pd st.paused_processes with
  | none => exact h
  | some info => exact run_project_disjoint env st pd info.chat_id _ true h

/-- deleteUserRecords never touches the running or paused registries. -/
theorem deleteUserRecords_registries (st : ManagerState) (pd : String) (chat : Int) :
    (deleteUserRecords st pd chat).running_processes = st.running_processes ∧
    (deleteUserRecords st pd chat).paused_processes = st.paused_processes := by
  unfold deleteUserRecords
  dsimp only
  repeat' split
  all_goals exact ⟨rfl, rfl⟩

/-- Disjointness of the registries survives the delete callback. -/
theorem delete_project_disjoint (st : ManagerState) (pd : String) (chat : Int)
    (h : registriesDisjoint st) : registriesDisjoint (delete_project st pd chat) := by
  have hreg := deleteUserRecords_registries st pd chat
  have h1 : registriesDisjoint (deleteUserRecords st pd chat) := by
    intro q
    rw [hreg.1, hreg.2]
    exact h q
  unfold delete_project
  dsimp only
  have h2 : registriesDisjoint
      (if (Dict.get pd (deleteUserRecords st pd chat).running_processes).isSome then
        (stop_project (deleteUserRecords st pd chat) pd chat false).2
      else deleteUserRecords st pd chat) := by
    split
    · exact stop_project_disjoint _ pd chat false h1
    · exact h1
  intro q
  by_cases hq : q = pd
  · subst hq
    exact Or.inr (Dict.get_erase_self q _)
  · rcases h2 q with hr | hp
    · exact Or.inl hr
    · exact Or.inr (by rw [Dict.get_erase_ne q pd _ (Ne.symm hq)]; exact hp)

/-- C1: every single supervisor operation (run_project, stop_project with or
without pause, the resume callback, the delete callback) preserves the
invariant that no project id is present in both the running and the paused
registry. -/
theorem supervisor_ops_preserve_registry_disjointness (env : Env) (st : ManagerState)
    (op : SupOp) (h : registriesDisjoint st) : registriesDisjoint (applyOp env st op) := by
  cases op with
  | runOp pd chat d a => exact run_project_disjoint env st pd chat d a h
  | stopOp pd chat p => exact stop_project_disjoint st pd chat p h
  | resumeOp pd => exact resume_project_disjoint env st pd h
  | deleteOp pd chat => exact delete_project_disjoint st pd chat h

/-- Witness for C1: pausing the only running project of a concrete state. -/
theorem supervisor_ops_disjointness_witness :
    registriesDisjoint st0 ∧
    registriesDisjoint (applyOp env0 st0 (SupOp.stopOp "projects/7/app" 50 true)) :=
  ⟨fun _ => Or.inr rfl,
    supervisor_ops_preserve_registry_disjointness env0 st0
      (SupOp.stopOp "projects/7/app" 50 true) (fun _ => Or.inr rfl)⟩

/-- Whenever run_project reports success, the project is registered under a
RunState whose processes are exactly the handles freshly spawned for the
resolved main files, whose start time is now, and whose end time is computed
by durToEnd from the requested duration; any paused entry for the id is gone. -/
theorem run_project_success_characterization (env : Env) (st : ManagerState) (pd : String)
    (chat : Int) (d : Option Int) (a : Bool)
    (h : (run_project env st pd chat d a).1 = true) :
    ∃ procs, launchProcesses env (resolveMainFiles env st pd chat).1 0 = some procs ∧
      procs ≠ [] ∧
      Dict.get pd (run_project env st pd chat d a).2.running_processes =
        some (mkRunState env st chat pd (resolveMainFiles env st pd chat).1 procs d a) ∧
      Dict.get pd (run_project env st pd chat d a).2.paused_processes = none := by
  by_cases h1 : (resolveMainFiles env st pd chat).1.isEmpty
  · simp [run_project, h1] at h
  · by_cases h2 : (resolveMainFiles env st pd chat).1.any fun f => !(env.pathExists f)
    · simp [run_project, h1, h2] at h
    · by_cases h3 : env.installOk pd
      · rcases h4 : launchProcesses env (resolveMainFiles env st pd chat).1 0 with _ | procs
        · simp [run_project, h1, h2, h3, h4] at h
        · by_cases h5 : procs.isEmpty
          · simp [run_project, h1, h2, h3, h4, h5] at h
          · refine ⟨procs, rfl, by simpa using h5, ?_, ?_⟩
            · simp [run_project, h1, h2, h3, h4, h5, Dict.get_insert_self]
            · simp [run_project, h1, h2, h3, h4, h5, Dict.get_erase_self]
      · simp [run_project, h1, h2, h3] at h

/-- C3: pausing a running project reports success and moves its RunState
verbatim (end_time included) from the running to the paused registry; if the
subsequent resume callback succeeds, the relaunched entry carries an end time
recomputed by durToEnd from the preserved end_time minus now in whole days,
its processes are exactly the handles newly spawned for its main files (the
dead handles stored in the paused record are never reused), and its start
time is the resume time. -/
theorem pause_preserves_end_time_resume_relaunches_fresh (env : Env) (st : ManagerState)
    (pd : String) (chat : Int) (info : RunState)
    (hrun : Dict.get pd st.running_processes = some info) :
    (stop_project st pd chat true).1 = true ∧
    Dict.get pd (stop_project st pd chat true).2.paused_processes = some info ∧
    Dict.get pd (stop_project st pd chat true).2.running_processes = none ∧
    ((resume_project env (stop_project st pd chat true).2 pd).1 = true →
      ∃ r, Dict.get pd
          (resume_project env (stop_project st pd chat true).2 pd).2.running_processes =
          some r ∧
        r.end_time =
          durToEnd env.now (info.end_time.map fun e => Int.fdiv (e - env.now) 86400) ∧
        launchProcesses env r.main_files 0 = some r.processes ∧
        r.start_time = env.now) := by
  have hstop : stop_project st pd chat true =
      (true,
        { st with
          paused_processes := Dict.insert pd info st.paused_processes,
          running_processes :=
            Dict.erase pd
              { st with paused_processes :=
                  Dict.insert pd info st.paused_processes }.running_processes }) := by
    unfold stop_project
    rw [hrun]
    rfl
  refine ⟨by rw [hstop], ?_, ?_, ?_⟩
  · rw [hstop]
    exact Dict.get_insert_self pd info _
  · rw [hstop]
    exact Dict.get_erase_self pd _
  · intro hres
    have hpget : Dict.get pd (stop_project st pd chat true).2.paused_processes = some info := by
      rw [hstop]
      exact Dict.get_insert_self pd info _
    have hresume : resume_project env (stop_project st pd chat true).2 pd =
        run_project env (stop_project st pd chat true).2 pd info.chat_id
          (info.end_time.map fun e => Int.fdiv (e - env.now) 86400) true := by
      unfold resume_project
      rw [hpget]
    rw [hresume] at hres ⊢
    obtain ⟨procs, hl, hne, hget, _⟩ :=
      run_project_success_characterization env (stop_project st pd chat true).2 pd
        info.chat_id (info.end_time.map fun e => Int.fdiv (e - env.now) 86400) true hres
    exact ⟨_, hget, rfl, by simpa [mkRunState] using hl, rfl⟩

/-- Witness for C3 at a concrete state: the app project is paused and then
resumed one hour before its stored deadline. -/
theorem pause_resume_witness :
    (resume_project env0 (stop_project st0 "projects/7/app" 50 true).2 "projects/7/app").1 =
      true ∧
    ((stop_project st0 "projects/7/app" 50 true).1 = true ∧
      Dict.get "projects/7/app"
          (stop_project st0 "projects/7/app" 50 true).2.paused_processes = some rsRunning0 ∧
      Dict.get "projects/7/app"
          (stop_project st0 "projects/7/app" 50 true).2.running_processes = none ∧
      ((resume_project env0 (stop_project st0 "projects/7/app" 50 true).2
            "projects/7/app").1 = true →
        ∃ r, Dict.get "projects/7/app"
            (resume_project env0 (stop_project st0 "projects/7/app" 50 true).2
              "projects/7/app").2.running_processes = some r ∧
          r.end_time =
            durToEnd env0.now (rsRunning0.end_time.map fun e => Int.fdiv (e - env0.now) 86400) ∧
          launchProcesses env0 r.main_files 0 = some r.processes ∧
          r.start_time = env0.now)) :=
  ⟨by decide,
    pause_preserves_end_time_resume_relaunches_fresh env0 st0 "projects/7/app" 50 rsRunning0
      (by decide)⟩

/-! ### The sweep state transformation (claims C5 and C10) -/

/-- When the persisted store resolves main files, resolution takes the store
path and leaves the state untouched. -/
theorem resolveMainFiles_store (env : Env) (st : ManagerState) (pd : String) (chat : Int)
    (hmf : persistedMainFilesOf st.user_projects chat pd ≠ []) :
    resolveMainFiles env st pd chat = (persistedMainFilesOf st.user_projects chat pd, st) := by
  have hie : (persistedMainFilesOf st.user_projects chat pd).isEmpty = false := by
    rcases hx : persistedMainFilesOf st.user_projects chat pd with _ | ⟨x, xs⟩
    · exact absurd hx hmf
    · simp
  unfold resolveMainFiles
  dsimp only
  rw [hie]
  simp

/-- When the store-success conditions hold, run_project succeeds and the
resulting state is the original one with the project freshly registered as
running and evicted from paused. -/
theorem run_project_store_success (env : Env) (st : ManagerState) (pd : String) (chat : Int)
    (d : Option Int) (a : Bool)
    (hr : runnableFromStore env st.user_projects pd chat) :
    run_project env st pd chat d a = (true,
      { st with
        running_processes := Dict.insert pd
          (mkRunState env st chat pd (persistedMainFilesOf st.user_projects chat pd)
            ((launchProcesses env (persistedMainFilesOf st.user_projects chat pd) 0).getD [])
            d a) st.running_processes,
        paused_processes := Dict.erase pd st.paused_processes }) := by
  obtain ⟨hmf, hex, hinst, hlsome, hlne⟩ := hr
  obtain ⟨procs, hl⟩ := Option.isSome_iff_exists.mp hlsome
  have hres := resolveMainFiles_store env st pd chat hmf
  have hgetD : (launchProcesses env (persistedMainFilesOf st.user_projects chat pd) 0).getD []
      = procs := by rw [hl]; rfl
  have hie : (persistedMainFilesOf st.user_projects chat pd).isEmpty = false := by
    rcases hx : persistedMainFilesOf st.user_projects chat pd with _ | ⟨x, xs⟩
    · exact absurd hx hmf
    · simp
  have hany : (persistedMainFilesOf st.user_projects chat pd).any
      (fun f => !(env.pathExists f)) = false := by
    simp only [List.any_eq_false]
    intro f hf
    simp [hex f hf]
  have hpne : procs ≠ [] := by
    rw [hgetD] at hlne
    exact hlne
  have hpie : procs.isEmpty = false := by
    rcases hx : procs with _ | ⟨y, ys⟩
    · exact absurd hx hpne
    · simp
  unfold run_project
  dsimp only
  rw [hres]
  dsimp only
  simp [hie, hany, hinst, hl, hpie, hgetD]

/-- The sweep body on one auto-restart entry satisfying the store-success
conditions: the old RunState is removed and a freshly restarted one is
registered under the same id. -/
theorem globalRestartStep_eq (env : Env) (st : ManagerState) (pd : String) (info : RunState)
    (ha : info.auto_restart = true)
    (hr : runnableFromStore env st.user_projects pd info.chat_id) :
    globalRestartStep env st (pd, info) =
      { st with
        running_processes := Dict.insert pd (restartedRunState env st.user_projects pd info)
          (Dict.erase pd st.running_processes),
        paused_processes := Dict.erase pd st.paused_processes } := by
  have hstop2 : (stop_project st pd info.chat_id false).2 =
      { st with running_processes := Dict.erase pd st.running_processes } := by
    unfold stop_project
    cases hg : Dict.get pd st.running_processes with
    | none =>
      dsimp only
      rw [Dict.erase_eq_of_get_none pd _ hg]
    | some i0 => rfl
  unfold globalRestartStep
  dsimp only
  rw [if_neg (show ¬(info.auto_restart = false) by simp [ha])]
  rw [hstop2]
  have hr1 : runnableFromStore env
      ({ st with running_processes :=
          Dict.erase pd st.running_processes } : ManagerState).user_projects
      pd info.chat_id := hr
  rw [run_project_store_success env _ pd info.chat_id _ info.auto_restart hr1]
  rfl

/-- The state reached by folding the sweep body over a snapshot with
distinct ids whose auto-restart entries all satisfy the store-success
conditions: user projects are untouched, ids outside the snapshot keep their
running entries, auto-restart entries end up freshly restarted, and the
remaining entries keep their original running entries. -/
theorem globalRestartFold_characterization (env : Env) (entries : List (String × RunState))
    (st : ManagerState)
    (hnd : (entries.map Prod.fst).Nodup)
    (hok : ∀ p ∈ entries, p.2.auto_restart = true →
      runnableFromStore env st.user_projects p.1 p.2.chat_id) :
    (List.foldl (globalRestartStep env) st entries).user_projects = st.user_projects ∧
    (∀ q, (∀ p ∈ entries, p.1 ≠ q) →
      Dict.get q (List.foldl (globalRestartStep env) st entries).running_processes =
        Dict.get q st.running_processes) ∧
    (∀ p ∈ entries, p.2.auto_restart = true →
      Dict.get p.1 (List.foldl (globalRestartStep env) st entries).running_processes =
        some (restartedRunState env st.user_projects p.1 p.2)) ∧
    (∀ p ∈ entries, p.2.auto_restart = false →
      Dict.get p.1 (List.foldl (globalRestartStep env) st entries).running_processes =
        Dict.get p.1 st.running_processes) := by
  induction entries generalizing st with
  | nil =>
    refine ⟨rfl, fun q _ => rfl, ?_, ?_⟩ <;> intro p hp <;> cases hp
  | cons hd rest ih =>
    obtain ⟨pd, info⟩ := hd
    have hnd' : (rest.map Prod.fst).Nodup := by
      rw [List.map_cons, List.nodup_cons] at hnd
      exact hnd.2
    have hpdrest : ∀ q ∈ rest, q.1 ≠ pd := by
      intro q hq hEq
      rw [List.map_cons, List.nodup_cons] at hnd
      exact hnd.1 (List.mem_map.mpr ⟨q, hq, hEq⟩)
    by_cases ha : info.auto_restart = true
    · have hr := hok (pd, info) (by simp) ha
      have hstep := globalRestartStep_eq env st pd info ha hr
      have hups1 : (globalRestartStep env st (pd, info)).user_projects = st.user_projects := by
        rw [hstep]
      have hok' : ∀ p ∈ rest, p.2.auto_restart = true →
          runnableFromStore env (globalRestartStep env st (pd, info)).user_projects
            p.1 p.2.chat_id := by
        intro p hp hpa
        rw [hups1]
        exact hok p (by simp [hp]) hpa
      obtain ⟨ih1, ih2, ih3, ih4⟩ := ih (globalRestartStep env st (pd, info)) hnd' hok'
      have hfold : List.foldl (globalRestartStep env) st ((pd, info) :: rest) =
          List.foldl (globalRestartStep env) (globalRestartStep env st (pd, info)) rest := rfl
      refine ⟨?_, ?_, ?_, ?_⟩
      · rw [hfold, ih1, hups1]
      · intro q hq
        have hqpd : pd ≠ q := hq (pd, info) (by simp)
        rw [hfold, ih2 q (fun p hp => hq p (by simp [hp])), hstep]
        dsimp only
        rw [Dict.get_insert_ne q pd _ _ hqpd, Dict.get_erase_ne q pd _ hqpd]
      · intro p hp hpa
        rcases List.mem_cons.mp hp with hEq | hmem
        · subst hEq
          rw [hfold, ih2 pd hpdrest, hstep]
          dsimp only
          rw [Dict.get_insert_self]
        · have hups2 := hups1
          rw [hfold, ih3 p hmem hpa, hups1]
      · intro p hp hpa
        rcases List.mem_cons.mp hp with hEq | hmem
        · subst hEq
          rw [hpa] at ha
          simp at ha
        · rw [hfold, ih4 p hmem hpa, hstep]
          dsimp only
          rw [Dict.get_insert_ne _ pd _ _ (Ne.symm (hpdrest p hmem)),
            Dict.get_erase_ne _ pd _ (Ne.symm (hpdrest p hmem))]
    · have ha' : info.auto_restart = false := by
        cases hab : info.auto_restart
        · rfl
        · exact absurd hab ha
      have hstep : globalRestartStep env st (pd, info) = st := by
        unfold globalRestartStep
        dsimp only
        rw [if_pos ha']
      have hok' : ∀ p ∈ rest, p.2.auto_restart = true →
          runnableFromStore env st.user_projects p.1 p.2.chat_id :=
        fun p hp hpa => hok p (by simp [hp]) hpa
      obtain ⟨ih1, ih2, ih3, ih4⟩ := ih st hnd' hok'
      have hfold : List.foldl (globalRestartStep env) st ((pd, info) :: rest) =
          List.foldl (globalRestartStep env) st rest := by
        rw [List.foldl_cons, hstep]
      refine ⟨?_, ?_, ?_, ?_⟩
      · rw [hfold, ih1]
      · intro q hq
        rw [hfold]
        exact ih2 q (fun p hp => hq p (by simp [hp]))
      · intro p hp hpa
        rcases List.mem_cons.mp hp with hEq | hmem
        · subst hEq
          rw [hpa] at ha'
          simp at ha'
        · rw [hfold]
          exact ih3 p hmem hpa
      · intro p hp hpa
        rcases List.mem_cons.mp hp with hEq | hmem
        · subst hEq
          rw [hfold]
          exact ih2 pd hpdrest
        · rw [hfold]
          exact ih4 p hmem hpa

/-- C5: after one exception-free pass of the periodic sweep over a snapshot
with distinct ids whose auto-restart entries can be relaunched from the
store, every entry with auto_restart false still holds its original RunState
untouched, and every entry with auto_restart true has been stopped and
immediately restarted: its new RunState keeps the same auto_restart flag,
starts now, and carries the end time recomputed by durToEnd from the
remaining whole days of the stored end_time (no duration when end_time was
absent). -/
theorem global_restart_pass_restarts_entries (env : Env) (st : ManagerState)
    (hnd : (st.running_processes.map Prod.fst).Nodup)
    (hok : ∀ p ∈ st.running_processes, p.2.auto_restart = true →
      runnableFromStore env st.user_projects p.1 p.2.chat_id) :
    ∀ p ∈ st.running_processes,
      (p.2.auto_restart = false →
        Dict.get p.1 (globalRestartPass env st).running_processes = some p.2) ∧
      (p.2.auto_restart = true →
        Dict.get p.1 (globalRestartPass env st).running_processes =
          some (restartedRunState env st.user_projects p.1 p.2) ∧
        (restartedRunState env st.user_projects p.1 p.2).auto_restart = true ∧
        (restartedRunState env st.user_projects p.1 p.2).start_time = env.now ∧
        (restartedRunState env st.user_projects p.1 p.2).end_time =
          durToEnd env.now (p.2.end_time.map fun e => Int.fdiv (e - env.now) 86400)) := by
  obtain ⟨h1, h2, h3, h4⟩ :=
    globalRestartFold_characterization env st.running_processes st hnd hok
  intro p hp
  constructor
  · intro hpa
    have hkeep := h4 p hp hpa
    have hmem : Dict.get p.1 st.running_processes = some p.2 :=
      Dict.get_of_mem_nodup hnd (by simpa using hp)
    unfold globalRestartPass
    rw [hkeep, hmem]
  · intro hpa
    refine ⟨?_, ?_, rfl, rfl⟩
    · unfold globalRestartPass
      exact h3 p hp hpa
    · simp [restartedRunState, hpa]

/-- Witness for C5: in a concrete state with one auto-restart project backed
by the store and one project with auto_restart disabled, the pass restarts
the former (auto_restart kept, started now, sub-day deadline dropped) and
leaves the latter untouched. -/
theorem global_restart_pass_witness :
    Dict.get "projects/7/app" (globalRestartPass env0 st5).running_processes =
      some (restartedRunState env0 st5.user_projects "projects/7/app" rsRunning0) ∧
    Dict.get "projects/7/b" (globalRestartPass env0 st5).running_processes =
      some rsNoRestart ∧
    (restartedRunState env0 st5.user_projects "projects/7/app" rsRunning0).auto_restart = true ∧
    (restartedRunState env0 st5.user_projects "projects/7/app" rsRunning0).start_time =
      env0.now ∧
    (restartedRunState env0 st5.user_projects "projects/7/app" rsRunning0).end_time =
      durToEnd env0.now (rsRunning0.end_time.map fun e => Int.fdiv (e - env0.now) 86400) := by
  have h := global_restart_pass_restarts_entries env0 st5 (by decide) (by decide)
  have h1 := (h ("projects/7/app", rsRunning0) (by decide)).2 rfl
  have h2 := (h ("projects/7/b", rsNoRestart) (by decide)).1 rfl
  exact ⟨h1.1, h2, h1.2.1, h1.2.2.1, h1.2.2.2⟩

/-- C10: a stored end_time less than one full day in the future makes the
recomputed duration exactly 0 whole days, and durToEnd maps a 0-day duration
to no deadline; hence both the sweep relaunch and a successful resume
re-register the project with end_time none, silently dropping its TTL. -/
theorem subday_end_time_silently_dropped (env : Env) (st : ManagerState) (pd : String)
    (info : RunState) (e : Int)
    (he : info.end_time = some e) (hlb : 0 ≤ e - env.now) (hub : e - env.now < 86400) :
    info.end_time.map (fun t => Int.fdiv (t - env.now) 86400) = some 0 ∧
    durToEnd env.now (some 0) = none ∧
    (info.auto_restart = true →
      runnableFromStore env st.user_projects pd info.chat_id →
      ∃ r, Dict.get pd (globalRestartStep env st (pd, info)).running_processes = some r ∧
        r.end_time = none) ∧
    (Dict.get pd st.paused_processes = some info →
      (resume_project env st pd).1 = true →
      ∃ r, Dict.get pd (resume_project env st pd).2.running_processes = some r ∧
        r.end_time = none) := by
  have hfd : Int.fdiv (e - env.now) 86400 = 0 := by
    rw [Int.fdiv_eq_ediv _ (by norm_num)]
    exact Int.ediv_eq_zero_of_lt hlb hub
  have hmap : info.end_time.map (fun t => Int.fdiv (t - env.now) 86400) = some 0 := by
    rw [he]
    simp [hfd]
  refine ⟨hmap, rfl, ?_, ?_⟩
  · intro ha hr
    rw [globalRestartStep_eq env st pd info ha hr]
    refine ⟨restartedRunState env st.user_projects pd info, ?_, ?_⟩
    · dsimp only
      rw [Dict.get_insert_self]
    · show durToEnd env.now (info.end_time.map fun t => Int.fdiv (t - env.now) 86400) = none
      rw [hmap]
      rfl
  · intro hpg hsucc
    have hresume : resume_project env st pd =
        run_project env st pd info.chat_id
          (info.end_time.map fun t => Int.fdiv (t - env.now) 86400) true := by
      unfold resume_project
      rw [hpg]
    rw [hresume] at hsucc ⊢
    obtain ⟨procs, _, _, hget, _⟩ :=
      run_project_success_characterization env st pd info.chat_id
        (info.end_time.map fun t => Int.fdiv (t - env.now) 86400) true hsucc
    refine ⟨_, hget, ?_⟩
    show durToEnd env.now (info.end_time.map fun t => Int.fdiv (t - env.now) 86400) = none
    rw [hmap]
    rfl

/-- Witness for C10: the stored deadline of the app project is one hour in
the future; the sweep relaunches it with no deadline, and resuming it from
pause likewise yields no deadline. -/
theorem subday_end_time_witness :
    rsRunning0.end_time.map (fun t => Int.fdiv (t - env0.now) 86400) = some 0 ∧
    durToEnd env0.now (some 0) = none ∧
    (rsRunning0.auto_restart = true →
      runnableFromStore env0 st0.user_projects "projects/7/app" rsRunning0.chat_id →
      ∃ r, Dict.get "projects/7/app"
          (globalRestartStep env0 st0 ("projects/7/app", rsRunning0)).running_processes =
          some r ∧ r.end_time = none) ∧
    (Dict.get "projects/7/app" stPaused.paused_processes = some rsRunning0 →
      (resume_project env0 stPaused "projects/7/app").1 = true →
      ∃ r, Dict.get "projects/7/app"
          (resume_project env0 stPaused "projects/7/app").2.running_processes = some r ∧
        r.end_time = none) := by
  have h := subday_end_time_silently_dropped env0 stPaused "projects/7/app" rsRunning0
    1003600 (by decide) (by decide) (by decide)
  have h' := subday_end_time_silently_dropped env0 st0 "projects/7/app" rsRunning0
    1003600 (by decide) (by decide) (by decide)
  exact ⟨h.1, h.2.1, h'.2.2.1, h.2.2.2⟩

end FreeFireBot
